import Mathlib

/-!
Verification of the research-loop program in `app(1).py` (Math Research
Copilot).  The program drives a fixed number of iterations; each iteration
calls an external Generator model, then an external Critic model, and appends
the Critic's `improved_version` to the running context and to the accepted-idea
list when the review score is at least 7.

The external model calls are non-deterministic I/O; we embed them by passing
the outcome of each call explicitly (`GenResult`, `CriticOutcome`).  The pure
post-processing that the Python code performs on those outcomes — the
`try/except` fallbacks of `agent_generator` and `agent_critic`, and the loop
body under `start_btn` — is translated directly.

A decoded JSON value from `json.loads` is modelled as a record with optional
fields (`ReviewDict`), mirroring a Python dict that may or may not carry each
of the keys `score`, `critique`, `improved_version` (the code reads them with
`review.get('score', 0)`, `review.get('critique')` and
`review['improved_version']` respectively).  An uncaught Python exception in
the loop body (the `KeyError` that `review['improved_version']` can raise) is
modelled as `Except.error`.
-/

namespace MathCopilot

/-- Outcome of the Generator's external `model.generate_content` call:
either the response text, or the exception message `str(e)`. -/
inductive GenResult where
  | success (text : String)
  | failure (err : String)
deriving DecidableEq, Repr

/-- `agent_generator` (lines 33–73): returns `response.text` verbatim on
success, and on any exception returns the string
`f"Generator Error: {str(e)}"`. -/
def agent_generator (context : String) (current_ideas : List String)
    (outcome : GenResult) : String :=
  match context, current_ideas, outcome with
  | _, _, .success t => t
  | _, _, .failure e => "Generator Error: " ++ e

/-- A Python dict produced by `json.loads` on the Critic's response, restricted
to the three keys the loop reads; each key may be absent.  This models only
well-typed dicts: `json.loads` can also produce a non-dict value (on which the
loop body's `review.get('score', 0)` raises `AttributeError`) or a dict whose
score is not an integer (on which the `>= 7` comparison raises `TypeError`);
those responses abort the real run and are outside this embedding, so no
theorem below claims a completion guarantee over decoded responses. -/
structure ReviewDict where
  score : Option Int
  critique : Option String
  improved_version : Option String
deriving DecidableEq, Repr

/-- Outcome of the Critic's external call:
* `requestError e` — `model.generate_content` (or reading `.text`) raised `e`;
* `decodeError e` — transport succeeded but `json.loads(response.text)` raised `e`;
* `decoded d` — `json.loads` succeeded and produced the well-typed dict `d`
  (see `ReviewDict` for the decoded values this constructor cannot carry). -/
inductive CriticOutcome where
  | requestError (err : String)
  | decodeError (err : String)
  | decoded (d : ReviewDict)
deriving DecidableEq, Repr

/-- The Critic's preferred model identifier (line 87). -/
def critic_model_name : String := "gemini-2.5-flash"

/-- The Critic's fallback model identifier (line 97), used when constructing
the handle for the preferred identifier raises. -/
def critic_fallback_model_name : String := "gemini-1.5-pro"

/-- The model identifier whose handle the Critic actually uses for the request,
as a function of whether constructing the preferred handle raised
(lines 89–99).  Note the local variable `model_name` is not updated by the
fallback branch, so diagnostics always cite `critic_model_name`. -/
def critic_used_model (constructionFailed : Bool) : String :=
  if constructionFailed then critic_fallback_model_name else critic_model_name

/-- The synthetic record returned by `agent_critic`'s `except` clause
(lines 126–131). -/
def critic_error_record (idea err : String) : ReviewDict :=
  { score := some 0
    critique := some ("Critic Error (" ++ critic_model_name ++ "): " ++ err)
    improved_version := some idea }

/-- `agent_critic` (lines 75–131): on a decoded response, returns
`json.loads(response.text)` as-is (no shape validation); if the request or the
JSON decode raised, returns the synthetic zero-score record.
`constructionFailed` records whether building the preferred model handle
raised (triggering the `gemini-1.5-pro` fallback); it does not influence the
returned record. -/
def agent_critic (idea : String) (context : String) (constructionFailed : Bool)
    (outcome : CriticOutcome) : ReviewDict :=
  match context, constructionFailed, outcome with
  | _, _, .decoded d => d
  | _, _, .requestError e => critic_error_record idea e
  | _, _, .decodeError e => critic_error_record idea e

/-- One entry of the per-iteration research log (the `st.expander` block,
lines 187–190): a 1-based cycle index, the raw candidate, the score shown in
the title via `review.get('score', 0)`, and the critique via
`review.get('critique')`. -/
structure LogEntry where
  index : Nat
  candidate : String
  score : Int
  critique : Option String
deriving DecidableEq, Repr

/-- The loop controller's state: `final_ideas` (line 164), `current_context`
(line 165) and the accumulated research log. -/
structure RunState where
  final_ideas : List String
  current_context : String
  log : List LogEntry
deriving DecidableEq, Repr

/-- The bundle of external outcomes consumed by one iteration. -/
structure IterOutcome where
  gen : GenResult
  criticConstructionFailed : Bool
  critic : CriticOutcome
deriving DecidableEq, Repr

/-- The block appended to the context for an accepted 0-based iteration `i`:
`f"\n\n[Extension {i+1}]: {review['improved_version']}"` (line 196). -/
def extBlock (i : Nat) (improved : String) : String :=
  "\n\n[Extension " ++ toString (i + 1) ++ "]: " ++ improved

/-- The review record produced in iteration state `st` for outcome `o`
(lines 180–184): the Generator's output feeds the Critic as the idea. -/
def reviewOf (st : RunState) (o : IterOutcome) : ReviewDict :=
  agent_critic (agent_generator st.current_context st.final_ideas o.gen)
    st.current_context o.criticConstructionFailed o.critic

/-- The log entry emitted for 0-based iteration `i` (lines 188–190). -/
def logEntryOf (i : Nat) (st : RunState) (o : IterOutcome) : LogEntry :=
  { index := i + 1
    candidate := agent_generator st.current_context st.final_ideas o.gen
    score := (reviewOf st o).score.getD 0
    critique := (reviewOf st o).critique }

/-- One iteration of the loop body (lines 178–198), for 0-based index `i`.
After logging, if `review.get('score', 0) >= 7` the code evaluates
`review['improved_version']`: a missing key raises `KeyError`
(modelled as `Except.error`), otherwise the value is appended to
`final_ideas` and, wrapped in `extBlock`, to `current_context`.
Otherwise the iteration mutates nothing besides the log. -/
def runIteration (i : Nat) (st : RunState) (o : IterOutcome) :
    Except String RunState :=
  let raw_idea := agent_generator st.current_context st.final_ideas o.gen
  let review := agent_critic raw_idea st.current_context
    o.criticConstructionFailed o.critic
  let logged : RunState :=
    { st with log := st.log ++ [logEntryOf i st o] }
  if 7 ≤ review.score.getD 0 then
    match review.improved_version with
    | none => .error "KeyError: improved_version"
    | some improved =>
      .ok { logged with
              final_ideas := logged.final_ideas ++ [improved]
              current_context := logged.current_context ++ extBlock i improved }
  else
    .ok logged

/-- `for i in range(iterations)` (line 173), starting at 0-based index `i`,
consuming one `IterOutcome` per iteration.  An uncaught exception in any
iteration aborts the rest of the run. -/
def runFrom (i : Nat) (st : RunState) : List IterOutcome → Except String RunState
  | [] => .ok st
  | o :: os =>
    match runIteration i st o with
    | .error e => .error e
    | .ok st1 => runFrom (i + 1) st1 os

/-- The state at the start of a run (lines 164–165): empty idea list, the seed
text as context, empty log. -/
def initState (original_text : String) : RunState :=
  { final_ideas := [], current_context := original_text, log := [] }

/-- A whole run: `iterations` equals `outcomes.length`. -/
def runLoop (original_text : String) (outcomes : List IterOutcome) :
    Except String RunState :=
  runFrom 0 (initState original_text) outcomes

/-- The sequence of review records produced along a run (cut short at an
uncaught exception, whose iteration still produced its review). -/
def runReviews (i : Nat) (st : RunState) : List IterOutcome → List ReviewDict
  | [] => []
  | o :: os =>
    match runIteration i st o with
    | .error _ => [reviewOf st o]
    | .ok st1 => reviewOf st o :: runReviews (i + 1) st1 os

/-- The sequence of log entries emitted along a run (cut short at an uncaught
exception, whose iteration still rendered its expander). -/
def runLogs (i : Nat) (st : RunState) : List IterOutcome → List LogEntry
  | [] => []
  | o :: os =>
    match runIteration i st o with
    | .error _ => [logEntryOf i st o]
    | .ok st1 => logEntryOf i st o :: runLogs (i + 1) st1 os

/-- The acceptance filter of the loop: the `improved_version` of a review
whose score (read with default 0) meets the threshold 7, else nothing. -/
def pickAccepted (r : ReviewDict) : Option String :=
  if 7 ≤ r.score.getD 0 then r.improved_version else none

/-- The extension blocks appended to the context along a run, in order. -/
def acceptedBlocks (i : Nat) (st : RunState) :
    List IterOutcome → List String
  | [] => []
  | o :: os =>
    match runIteration i st o with
    | .error _ => []
    | .ok st1 =>
      (match pickAccepted (reviewOf st o) with
       | some improved => [extBlock i improved]
       | none => []) ++ acceptedBlocks (i + 1) st1 os

/-! ### Characterization lemmas for one iteration -/

/-- Unfolding `runIteration` through `reviewOf` and `logEntryOf`. -/
lemma runIteration_eq (i : Nat) (st : RunState) (o : IterOutcome) :
    runIteration i st o =
      if 7 ≤ (reviewOf st o).score.getD 0 then
        match (reviewOf st o).improved_version with
        | none => .error "KeyError: improved_version"
        | some improved =>
          .ok { final_ideas := st.final_ideas ++ [improved]
                current_context := st.current_context ++ extBlock i improved
                log := st.log ++ [logEntryOf i st o] }
      else .ok { st with log := st.log ++ [logEntryOf i st o] } := rfl

lemma runIteration_accept (i : Nat) (st : RunState) (o : IterOutcome)
    (improved : String) (h7 : 7 ≤ (reviewOf st o).score.getD 0)
    (hiv : (reviewOf st o).improved_version = some improved) :
    runIteration i st o = .ok
      { final_ideas := st.final_ideas ++ [improved]
        current_context := st.current_context ++ extBlock i improved
        log := st.log ++ [logEntryOf i st o] } := by
  rw [runIteration_eq, if_pos h7, hiv]

lemma runIteration_reject (i : Nat) (st : RunState) (o : IterOutcome)
    (h7 : ¬ 7 ≤ (reviewOf st o).score.getD 0) :
    runIteration i st o = .ok { st with log := st.log ++ [logEntryOf i st o] } := by
  rw [runIteration_eq, if_neg h7]

lemma runIteration_crash (i : Nat) (st : RunState) (o : IterOutcome)
    (h7 : 7 ≤ (reviewOf st o).score.getD 0)
    (hiv : (reviewOf st o).improved_version = none) :
    runIteration i st o = .error "KeyError: improved_version" := by
  rw [runIteration_eq, if_pos h7, hiv]

lemma reviewOf_decoded {st : RunState} {o : IterOutcome} {d : ReviewDict}
    (h : o.critic = .decoded d) : reviewOf st o = d := by
  simp [reviewOf, agent_critic, h]

lemma reviewOf_requestError {st : RunState} {o : IterOutcome} {e : String}
    (h : o.critic = .requestError e) :
    reviewOf st o =
      critic_error_record
        (agent_generator st.current_context st.final_ideas o.gen) e := by
  simp [reviewOf, agent_critic, h]

lemma reviewOf_decodeError {st : RunState} {o : IterOutcome} {e : String}
    (h : o.critic = .decodeError e) :
    reviewOf st o =
      critic_error_record
        (agent_generator st.current_context st.final_ideas o.gen) e := by
  simp [reviewOf, agent_critic, h]

/-- The state after a successful iteration, with the accept/reject decision
expressed through `pickAccepted`. -/
lemma runIteration_ok_fields {i : Nat} {st0 st1 : RunState} {o : IterOutcome}
    (h : runIteration i st0 o = .ok st1) :
    st1.final_ideas = st0.final_ideas ++ (pickAccepted (reviewOf st0 o)).toList ∧
    st1.current_context = (pickAccepted (reviewOf st0 o)).elim
      st0.current_context (fun improved => st0.current_context ++ extBlock i improved) ∧
    st1.log = st0.log ++ [logEntryOf i st0 o] := by
  by_cases h7 : 7 ≤ (reviewOf st0 o).score.getD 0
  · cases hiv : (reviewOf st0 o).improved_version with
    | none => rw [runIteration_crash i st0 o h7 hiv] at h; exact absurd h (by simp)
    | some improved =>
      rw [runIteration_accept i st0 o improved h7 hiv] at h
      have hst : st1 = { final_ideas := st0.final_ideas ++ [improved]
                         current_context := st0.current_context ++ extBlock i improved
                         log := st0.log ++ [logEntryOf i st0 o] } := by
        exact (Except.ok.injEq _ _ ▸ h.symm)
      subst hst
      simp [pickAccepted, h7, hiv, Option.toList]
  · rw [runIteration_reject i st0 o h7] at h
    have hst : st1 = { st0 with log := st0.log ++ [logEntryOf i st0 o] } := by
      exact (Except.ok.injEq _ _ ▸ h.symm)
    subst hst
    simp [pickAccepted, h7, Option.toList]

lemma runFrom_cons_ok {i : Nat} {st0 : RunState} {o : IterOutcome}
    {os : List IterOutcome} {st : RunState}
    (h : runFrom i st0 (o :: os) = .ok st) :
    ∃ st1, runIteration i st0 o = .ok st1 ∧ runFrom (i + 1) st1 os = .ok st := by
  cases hh : runIteration i st0 o with
  | error e => rw [runFrom, hh] at h; exact absurd h (by simp)
  | ok st1 => rw [runFrom, hh] at h; exact ⟨st1, rfl, h⟩

/-! ### Run-level induction lemmas -/

/-- Along a successful run, `final_ideas` accumulates exactly the accepted
`improved_version` values, in order. -/
lemma runFrom_final_ideas (os : List IterOutcome) :
    ∀ (i : Nat) (st0 st : RunState), runFrom i st0 os = .ok st →
      st.final_ideas =
        st0.final_ideas ++ (runReviews i st0 os).filterMap pickAccepted := by
  induction os with
  | nil =>
    intro i st0 st h
    rw [runFrom] at h
    have hst : st0 = st := by exact (Except.ok.injEq _ _ ▸ h)
    subst hst
    simp [runReviews]
  | cons o os ih =>
    intro i st0 st h
    obtain ⟨st1, hok, hrest⟩ := runFrom_cons_ok h
    have hrev : runReviews i st0 (o :: os) =
        reviewOf st0 o :: runReviews (i + 1) st1 os := by
      rw [runReviews, hok]
    rw [hrev, List.filterMap_cons, ih _ _ _ hrest,
      (runIteration_ok_fields hok).1]
    cases hp : pickAccepted (reviewOf st0 o) with
    | none => simp
    | some improved => simp [Option.toList]

/-- Along a successful run, the context is the start context followed by
exactly the accepted extension blocks. -/
lemma runFrom_context_length (os : List IterOutcome) :
    ∀ (i : Nat) (st0 st : RunState), runFrom i st0 os = .ok st →
      st.current_context.length =
        st0.current_context.length +
          ((acceptedBlocks i st0 os).map String.length).sum := by
  induction os with
  | nil =>
    intro i st0 st h
    rw [runFrom] at h
    have hst : st0 = st := by exact (Except.ok.injEq _ _ ▸ h)
    subst hst
    simp [acceptedBlocks]
  | cons o os ih =>
    intro i st0 st h
    obtain ⟨st1, hok, hrest⟩ := runFrom_cons_ok h
    have hblocks : acceptedBlocks i st0 (o :: os) =
        (match pickAccepted (reviewOf st0 o) with
         | some improved => [extBlock i improved]
         | none => []) ++ acceptedBlocks (i + 1) st1 os := by
      rw [acceptedBlocks, hok]
    have hctx := (runIteration_ok_fields hok).2.1
    rw [hblocks, ih _ _ _ hrest, hctx]
    cases hp : pickAccepted (reviewOf st0 o) with
    | none => simp
    | some improved => simp [String.length_append]; omega

/-- A successful iteration never shrinks the context. -/
lemma runIteration_context_mono {i : Nat} {st0 st1 : RunState}
    {o : IterOutcome} (h : runIteration i st0 o = .ok st1) :
    st0.current_context.length ≤ st1.current_context.length := by
  have hctx := (runIteration_ok_fields h).2.1
  cases hp : pickAccepted (reviewOf st0 o) with
  | none => rw [hctx, hp]; exact le_refl _
  | some improved =>
    rw [hctx, hp]
    simp [String.length_append]

/-- Along a successful run, the log accumulates one entry per iteration, with
1-based indices in order and with the score read from the iteration's review
via `review.get('score', 0)`. -/
lemma runFrom_log (os : List IterOutcome) :
    ∀ (i : Nat) (st0 st : RunState), runFrom i st0 os = .ok st →
      st.log = st0.log ++ runLogs i st0 os ∧
      (runLogs i st0 os).length = os.length ∧
      (runLogs i st0 os).map LogEntry.index = List.range' (i + 1) os.length ∧
      (runLogs i st0 os).map LogEntry.score =
        (runReviews i st0 os).map (fun r => r.score.getD 0) := by
  induction os with
  | nil =>
    intro i st0 st h
    rw [runFrom] at h
    have hst : st0 = st := by exact (Except.ok.injEq _ _ ▸ h)
    subst hst
    simp [runLogs, runReviews]
  | cons o os ih =>
    intro i st0 st h
    obtain ⟨st1, hok, hrest⟩ := runFrom_cons_ok h
    have hlogs : runLogs i st0 (o :: os) =
        logEntryOf i st0 o :: runLogs (i + 1) st1 os := by
      rw [runLogs, hok]
    have hrev : runReviews i st0 (o :: os) =
        reviewOf st0 o :: runReviews (i + 1) st1 os := by
      rw [runReviews, hok]
    obtain ⟨ih1, ih2, ih3, ih4⟩ := ih (i + 1) st1 st hrest
    refine ⟨?_, ?_, ?_, ?_⟩
    · rw [hlogs, ih1, (runIteration_ok_fields hok).2.2]
      simp
    · rw [hlogs]; simp [ih2]
    · rw [hlogs]
      simp only [List.length_cons, List.range'_succ, List.map_cons, ih3, logEntryOf]
    · rw [hlogs, hrev]
      simp only [List.map_cons, ih4, logEntryOf]

/-! ### Claim theorems -/

/-- Claim C1: in every iteration `i` (1-based `i+1` here over 0-based `i`), a
review score ≥ 7 appends `"\n\n[Extension i]: " ++ improved_version` to the
context and `improved_version` to the accepted ideas, a score < 7 leaves both
unchanged; and for seed `"A."`, one iteration, and review
`{score: 8, critique: "Good", improved_version: "A, extended."}`, the final
context is `"A.\n\n[Extension 1]: A, extended."` and the accepted ideas are
`["A, extended."]`. -/
theorem C1_accept_reject_and_scenario :
    (∀ (i : Nat) (st : RunState) (o : IterOutcome) (improved : String),
        7 ≤ (reviewOf st o).score.getD 0 →
        (reviewOf st o).improved_version = some improved →
        ∃ st1, runIteration i st o = .ok st1 ∧
          st1.current_context =
            st.current_context ++ "\n\n[Extension " ++ toString (i + 1) ++
              "]: " ++ improved ∧
          st1.final_ideas = st.final_ideas ++ [improved]) ∧
    (∀ (i : Nat) (st : RunState) (o : IterOutcome),
        (reviewOf st o).score.getD 0 < 7 →
        ∃ st1, runIteration i st o = .ok st1 ∧
          st1.current_context = st.current_context ∧
          st1.final_ideas = st.final_ideas) ∧
    (∃ st1, runLoop "A." [⟨.success "cand", false,
        .decoded ⟨some 8, some "Good", some "A, extended."⟩⟩] = .ok st1 ∧
      st1.current_context = "A.\n\n[Extension 1]: A, extended." ∧
      st1.final_ideas = ["A, extended."]) := by
  refine ⟨?_, ?_, ?_⟩
  · intro i st o improved h7 hiv
    refine ⟨_, runIteration_accept i st o improved h7 hiv, ?_, rfl⟩
    simp [extBlock, String.append_assoc]
  · intro i st o h7
    exact ⟨_, runIteration_reject i st o (not_le.mpr h7), rfl, rfl⟩
  · exact ⟨_, rfl, rfl, rfl⟩

/-- Witness for C1: the accept branch at a concrete accepted iteration. -/
theorem C1_witness :
    ∃ st1, runIteration 0 (initState "A.")
        ⟨.success "cand", false,
          .decoded ⟨some 8, some "Good", some "A, extended."⟩⟩ = .ok st1 ∧
      st1.current_context =
        (initState "A.").current_context ++ "\n\n[Extension " ++
          toString (0 + 1) ++ "]: " ++ "A, extended." ∧
      st1.final_ideas = (initState "A.").final_ideas ++ ["A, extended."] :=
  C1_accept_reject_and_scenario.1 0 (initState "A.")
    ⟨.success "cand", false, .decoded ⟨some 8, some "Good", some "A, extended."⟩⟩
    "A, extended." (by decide) rfl

/-- Claim C4: at the end of a completed run, `final_ideas` is exactly the
ordered subsequence of the `improved_version` values of the run's reviews,
keeping precisely the reviews whose score (read with default 0) is ≥ 7. -/
theorem C4_accepted_subsequence (original_text : String)
    (outcomes : List IterOutcome) (st : RunState)
    (h : runLoop original_text outcomes = .ok st) :
    st.final_ideas =
      (runReviews 0 (initState original_text) outcomes).filterMap pickAccepted := by
  have hmain := runFrom_final_ideas outcomes 0 (initState original_text) st h
  simpa [initState] using hmain

/-- Witness for C4: a two-iteration run, one accepted and one rejected. -/
theorem C4_witness :
    (⟨["X"], "A.\n\n[Extension 1]: X",
      [⟨1, "cand", 8, some "G"⟩, ⟨2, "c2", 5, some "B"⟩]⟩ : RunState).final_ideas =
      (runReviews 0 (initState "A.")
        [⟨.success "cand", false, .decoded ⟨some 8, some "G", some "X"⟩⟩,
         ⟨.success "c2", false, .decoded ⟨some 5, some "B", some "Y"⟩⟩]).filterMap
        pickAccepted :=
  C4_accepted_subsequence "A."
    [⟨.success "cand", false, .decoded ⟨some 8, some "G", some "X"⟩⟩,
     ⟨.success "c2", false, .decoded ⟨some 5, some "B", some "Y"⟩⟩] _ rfl

/-- Claim C5: no successful iteration shrinks the context (its character count
is monotonically non-decreasing across iterations), and the final context
length of a completed run equals the seed length plus the sum of the lengths
of the accepted iterations' appended extension blocks. -/
theorem C5_context_monotone_and_length :
    (∀ (i : Nat) (st : RunState) (o : IterOutcome) (st1 : RunState),
        runIteration i st o = .ok st1 →
        st.current_context.length ≤ st1.current_context.length) ∧
    (∀ (original_text : String) (outcomes : List IterOutcome) (st : RunState),
        runLoop original_text outcomes = .ok st →
        st.current_context.length =
          original_text.length +
            ((acceptedBlocks 0 (initState original_text) outcomes).map
              String.length).sum) := by
  constructor
  · intro i st o st1 h
    exact runIteration_context_mono h
  · intro original_text outcomes st h
    have hmain := runFrom_context_length outcomes 0 (initState original_text) st h
    simpa [initState] using hmain

/-- Witness for C5: the length identity at a concrete accepted run. -/
theorem C5_witness :
    (⟨["X"], "A.\n\n[Extension 1]: X",
      [⟨1, "cand", 8, some "G"⟩]⟩ : RunState).current_context.length =
      "A.".length +
        ((acceptedBlocks 0 (initState "A.")
          [⟨.success "cand", false, .decoded ⟨some 8, some "G", some "X"⟩⟩]).map
          String.length).sum :=
  C5_context_monotone_and_length.2 "A."
    [⟨.success "cand", false, .decoded ⟨some 8, some "G", some "X"⟩⟩] _ rfl

/-- Claim C8: a completed run over `N ∈ [1,10]` iterations logs exactly `N`
entries, with 1-based indices `1, …, N` in order, and each entry's score field
populated from its iteration's review via `review.get('score', 0)` —
regardless of how many iterations were accepted or failed. -/
theorem C8_log_entries (original_text : String) (outcomes : List IterOutcome)
    (st : RunState) (h1 : 1 ≤ outcomes.length) (h10 : outcomes.length ≤ 10)
    (h : runLoop original_text outcomes = .ok st) :
    st.log.length = outcomes.length ∧
    st.log.map LogEntry.index = List.range' 1 outcomes.length ∧
    st.log.map LogEntry.score =
      (runReviews 0 (initState original_text) outcomes).map
        (fun r => r.score.getD 0) := by
  obtain ⟨hl, hlen, hidx, hscore⟩ :=
    runFrom_log outcomes 0 (initState original_text) st h
  have hlog : st.log = runLogs 0 (initState original_text) outcomes := by
    simpa [initState] using hl
  rw [hlog]
  exact ⟨hlen, by simpa using hidx, hscore⟩

/-- Witness for C8: a two-iteration run with one accepted and one failed
iteration still logs exactly two entries, indexed 1 and 2. -/
theorem C8_witness :
    (⟨["X"], "A.\n\n[Extension 1]: X",
      [⟨1, "cand", 8, some "G"⟩,
       ⟨2, "c2", 0, some ("Critic Error (" ++ critic_model_name ++ "): down")⟩]⟩ :
        RunState).log.length = 2 ∧
    (⟨["X"], "A.\n\n[Extension 1]: X",
      [⟨1, "cand", 8, some "G"⟩,
       ⟨2, "c2", 0, some ("Critic Error (" ++ critic_model_name ++ "): down")⟩]⟩ :
        RunState).log.map LogEntry.index = List.range' 1 2 ∧
    (⟨["X"], "A.\n\n[Extension 1]: X",
      [⟨1, "cand", 8, some "G"⟩,
       ⟨2, "c2", 0, some ("Critic Error (" ++ critic_model_name ++ "): down")⟩]⟩ :
        RunState).log.map LogEntry.score =
      (runReviews 0 (initState "A.")
        [⟨.success "cand", false, .decoded ⟨some 8, some "G", some "X"⟩⟩,
         ⟨.success "c2", false, .requestError "down"⟩]).map
        (fun r => r.score.getD 0) :=
  C8_log_entries "A."
    [⟨.success "cand", false, .decoded ⟨some 8, some "G", some "X"⟩⟩,
     ⟨.success "c2", false, .requestError "down"⟩] _
    (by decide) (by decide) rfl

/-- Claim C2 (as stated) is false: a Critic response that decodes as valid
JSON with score ≥ 7 but no `improved_version` key aborts the run — the loop
body's `review['improved_version']` raises `KeyError` (modelled as
`Except.error`), so the remaining iterations never execute. -/
theorem C2_counterexample :
    runLoop "A." [⟨.success "cand", false, .decoded ⟨some 9, none, none⟩⟩] =
      .error "KeyError: improved_version" := rfl

/-- Claim C2 as amended: past the credential check, a Critic request failure
or JSON-decode failure never aborts — the iteration degrades to a rejection
(the synthetic score 0 record, so only the log changes) and the run proceeds
with the remaining iterations from that rejected state; and a Generator
failure never aborts by itself — the iteration proceeds exactly as if the
error string were a successfully generated candidate (so it need not be
rejected).  A malformed structured Critic response is not recovered and can
abort the run, as the counterexample shows. -/
theorem C2_amended :
    (∀ (i : Nat) (st : RunState) (o : IterOutcome) (e : String),
        o.critic = .requestError e ∨ o.critic = .decodeError e →
        runIteration i st o =
          .ok { st with log := st.log ++ [logEntryOf i st o] }) ∧
    (∀ (i : Nat) (st : RunState) (o : IterOutcome) (e : String)
        (os : List IterOutcome),
        o.critic = .requestError e ∨ o.critic = .decodeError e →
        runFrom i st (o :: os) =
          runFrom (i + 1) { st with log := st.log ++ [logEntryOf i st o] } os) ∧
    (∀ (i : Nat) (st : RunState) (err : String) (cf : Bool)
        (co : CriticOutcome),
        runIteration i st ⟨.failure err, cf, co⟩ =
          runIteration i st ⟨.success ("Generator Error: " ++ err), cf, co⟩) := by
  have key : ∀ (i : Nat) (st : RunState) (o : IterOutcome) (e : String),
      o.critic = .requestError e ∨ o.critic = .decodeError e →
      runIteration i st o =
        .ok { st with log := st.log ++ [logEntryOf i st o] } := by
    intro i st o e he
    have hrev : reviewOf st o =
        critic_error_record
          (agent_generator st.current_context st.final_ideas o.gen) e := by
      cases he with
      | inl h1 => exact reviewOf_requestError h1
      | inr h1 => exact reviewOf_decodeError h1
    have h0 : (reviewOf st o).score.getD 0 = 0 := by rw [hrev]; rfl
    have h7 : ¬ 7 ≤ (reviewOf st o).score.getD 0 := by rw [h0]; decide
    exact runIteration_reject i st o h7
  refine ⟨key, ?_, ?_⟩
  · intro i st o e os he
    rw [runFrom, key i st o e he]
  · intro i st err cf co
    rfl

/-- Witness for the amended C2: a concrete two-iteration run whose first
iteration suffers both a Generator failure and a Critic request failure
proceeds into its second iteration from the rejected state. -/
theorem C2_witness :
    runFrom 0 (initState "A.")
        [⟨GenResult.failure "boom", false, CriticOutcome.requestError "down"⟩,
         ⟨GenResult.success "next", false, CriticOutcome.decodeError "bad"⟩] =
      runFrom 1
        { initState "A." with
            log := (initState "A.").log ++
              [logEntryOf 0 (initState "A.")
                ⟨GenResult.failure "boom", false,
                  CriticOutcome.requestError "down"⟩] }
        [⟨GenResult.success "next", false, CriticOutcome.decodeError "bad"⟩] :=
  C2_amended.2.1 0 (initState "A.")
    ⟨GenResult.failure "boom", false, CriticOutcome.requestError "down"⟩
    "down" [⟨GenResult.success "next", false, CriticOutcome.decodeError "bad"⟩]
    (Or.inl rfl)

/-- Claim C3 (as stated) is false: a response that decodes as valid JSON but
lacks the three-field shape (here `{score: 9}` with no critique and no
improved_version) is returned by `agent_critic` as-is — score 9, not the
synthetic zero-score fallback record. -/
theorem C3_counterexample :
    agent_critic "cand" "ctx" false (.decoded ⟨some 9, none, none⟩) =
      (⟨some 9, none, none⟩ : ReviewDict) ∧
    (agent_critic "cand" "ctx" false (.decoded ⟨some 9, none, none⟩)).score ≠
      some 0 ∧
    agent_critic "cand" "ctx" false (.decoded ⟨some 9, none, none⟩) ≠
      agent_critic "cand" "ctx" false (.requestError "err") := by
  refine ⟨rfl, by decide, by decide⟩

/-- Claim C3 as amended: only a response whose JSON decoding raises is treated
identically to a request failure (the same synthetic zero-score fallback
record); a response that decodes as valid JSON is returned as-is, even when it
lacks the expected three-field shape. -/
theorem C3_amended :
    ∀ (idea context err : String) (cf : Bool),
      agent_critic idea context cf (.decodeError err) =
        agent_critic idea context cf (.requestError err) ∧
      agent_critic idea context cf (.decodeError err) =
        critic_error_record idea err ∧
      ∀ d : ReviewDict, agent_critic idea context cf (.decoded d) = d := by
  intro idea context err cf
  exact ⟨rfl, rfl, fun d => rfl⟩

/-- Claim C6: when the Critic's request fails or its response cannot be
decoded, the returned record has score 0, `improved_version` equal to the
unmodified candidate, and a critique string naming the model identifier and
the error; consequently the iteration is rejected and neither the context nor
the accepted ideas change. -/
theorem C6_critic_failure_record :
    (∀ (idea context err : String) (cf : Bool) (outcome : CriticOutcome),
        outcome = .requestError err ∨ outcome = .decodeError err →
        agent_critic idea context cf outcome =
          { score := some 0
            critique :=
              some ("Critic Error (" ++ critic_model_name ++ "): " ++ err)
            improved_version := some idea }) ∧
    (∀ (i : Nat) (st : RunState) (o : IterOutcome) (err : String),
        o.critic = .requestError err ∨ o.critic = .decodeError err →
        (reviewOf st o).score = some 0 ∧
        (reviewOf st o).improved_version =
          some (agent_generator st.current_context st.final_ideas o.gen) ∧
        (reviewOf st o).critique =
          some ("Critic Error (" ++ critic_model_name ++ "): " ++ err) ∧
        ∃ st1, runIteration i st o = .ok st1 ∧
          st1.final_ideas = st.final_ideas ∧
          st1.current_context = st.current_context) := by
  constructor
  · intro idea context err cf outcome ho
    cases ho with
    | inl h1 => rw [h1]; rfl
    | inr h1 => rw [h1]; rfl
  · intro i st o err ho
    have hrev : reviewOf st o =
        critic_error_record
          (agent_generator st.current_context st.final_ideas o.gen) err := by
      cases ho with
      | inl h1 => exact reviewOf_requestError h1
      | inr h1 => exact reviewOf_decodeError h1
    have h0 : (reviewOf st o).score.getD 0 = 0 := by rw [hrev]; rfl
    have h7 : ¬ 7 ≤ (reviewOf st o).score.getD 0 := by rw [h0]; decide
    rw [hrev]
    exact ⟨rfl, rfl, rfl, _, runIteration_reject i st o h7, rfl, rfl⟩

/-- Witness for C6: a concrete decode failure rejects the iteration with the
zero-score record carrying the original candidate. -/
theorem C6_witness :
    (reviewOf (initState "A.")
        ⟨GenResult.success "cand", false, CriticOutcome.decodeError "bad json"⟩).score =
      some 0 ∧
    (reviewOf (initState "A.")
        ⟨GenResult.success "cand", false, CriticOutcome.decodeError "bad json"⟩).improved_version =
      some (agent_generator (initState "A.").current_context
        (initState "A.").final_ideas (GenResult.success "cand")) ∧
    (reviewOf (initState "A.")
        ⟨GenResult.success "cand", false, CriticOutcome.decodeError "bad json"⟩).critique =
      some ("Critic Error (" ++ critic_model_name ++ "): " ++ "bad json") ∧
    ∃ st1, runIteration 0 (initState "A.")
        ⟨GenResult.success "cand", false, CriticOutcome.decodeError "bad json"⟩ = .ok st1 ∧
      st1.final_ideas = (initState "A.").final_ideas ∧
      st1.current_context = (initState "A.").current_context :=
  C6_critic_failure_record.2 0 (initState "A.")
    ⟨GenResult.success "cand", false, CriticOutcome.decodeError "bad json"⟩
    "bad json" (Or.inr rfl)

/-- Claim C7: if the Generator's request raises, `agent_generator` returns the
non-empty string `"Generator Error: " ++ err`, and the iteration behaves
exactly as if that string had been a successful candidate — it is fed to the
Critic and the loop body proceeds identically. -/
theorem C7_generator_error_candidate :
    ∀ (context : String) (ideas : List String) (err : String),
      agent_generator context ideas (.failure err) = "Generator Error: " ++ err ∧
      (agent_generator context ideas (.failure err)).length ≠ 0 ∧
      ∀ (i : Nat) (st : RunState) (cf : Bool) (co : CriticOutcome),
        reviewOf st ⟨.failure err, cf, co⟩ =
          agent_critic ("Generator Error: " ++ err) st.current_context cf co ∧
        runIteration i st ⟨.failure err, cf, co⟩ =
          runIteration i st ⟨.success ("Generator Error: " ++ err), cf, co⟩ := by
  intro context ideas err
  refine ⟨rfl, ?_, ?_⟩
  · show ("Generator Error: " ++ err).length ≠ 0
    rw [String.length_append]
    have h17 : "Generator Error: ".length = 17 := rfl
    omega
  · intro i st cf co
    exact ⟨rfl, rfl⟩

/-- Claim C9: when constructing the preferred Critic model handle fails, the
request uses the alternate identifier `gemini-1.5-pro` instead of
`gemini-2.5-flash`, and the fallback is transparent to the caller — for every
outcome, `agent_critic` returns the same record whether or not the fallback
was taken, and the synthetic failure record always populates all three
fields. -/
theorem C9_model_fallback :
    critic_used_model true = critic_fallback_model_name ∧
    critic_used_model false = critic_model_name ∧
    critic_fallback_model_name ≠ critic_model_name ∧
    (∀ (idea context : String) (outcome : CriticOutcome),
        agent_critic idea context true outcome =
          agent_critic idea context false outcome) ∧
    (∀ (idea context err : String) (cf : Bool),
        (agent_critic idea context cf (.requestError err)).score.isSome ∧
        (agent_critic idea context cf (.requestError err)).critique.isSome ∧
        (agent_critic idea context cf
          (.requestError err)).improved_version.isSome) := by
  refine ⟨rfl, rfl, by decide, ?_, ?_⟩
  · intro idea context outcome
    cases outcome <;> rfl
  · intro idea context err cf
    exact ⟨rfl, rfl, rfl⟩

/-- Claim C10: a decoded review dict lacking the `score` key is read as score
0 by `review.get('score', 0)`, so the iteration is rejected: the log records
score 0 and neither the context nor the accepted ideas change. -/
theorem C10_missing_score (i : Nat) (st : RunState) (o : IterOutcome)
    (d : ReviewDict) (hc : o.critic = .decoded d) (hs : d.score = none) :
    (logEntryOf i st o).score = 0 ∧
    ∃ st1, runIteration i st o = .ok st1 ∧
      st1.final_ideas = st.final_ideas ∧
      st1.current_context = st.current_context ∧
      st1.log = st.log ++ [logEntryOf i st o] := by
  have hrev : reviewOf st o = d := reviewOf_decoded hc
  have h0 : (reviewOf st o).score.getD 0 = 0 := by rw [hrev, hs]; rfl
  have h7 : ¬ 7 ≤ (reviewOf st o).score.getD 0 := by rw [h0]; decide
  refine ⟨?_, _, runIteration_reject i st o h7, rfl, rfl, rfl⟩
  simp [logEntryOf, h0]

/-- Witness for C10: a concrete decoded review without a score field is
rejected with logged score 0. -/
theorem C10_witness :
    (logEntryOf 0 (initState "A.")
        ⟨GenResult.success "cand", false,
          CriticOutcome.decoded ⟨none, some "crit", some "better"⟩⟩).score = 0 ∧
    ∃ st1, runIteration 0 (initState "A.")
        ⟨GenResult.success "cand", false,
          CriticOutcome.decoded ⟨none, some "crit", some "better"⟩⟩ = .ok st1 ∧
      st1.final_ideas = (initState "A.").final_ideas ∧
      st1.current_context = (initState "A.").current_context ∧
      st1.log = (initState "A.").log ++
        [logEntryOf 0 (initState "A.")
          ⟨GenResult.success "cand", false,
            CriticOutcome.decoded ⟨none, some "crit", some "better"⟩⟩] :=
  C10_missing_score 0 (initState "A.")
    ⟨GenResult.success "cand", false,
      CriticOutcome.decoded ⟨none, some "crit", some "better"⟩⟩
    ⟨none, some "crit", some "better"⟩ rfl rfl

end MathCopilot
